import Mathlib

/-!
# redisearch_vector: embedding-and-index workflow

A shallow embedding of `examples/redisearch_vector/redisearch_vector.go`.

The program is glue code around two external services (the embedding provider
and the search index).  Every call to one of them is modelled as a question
put to an environment `Env`; the answer may depend on everything that happened
before, which is kept in a chronological log of `Event`s.  Each Go function
becomes a Lean function from the log at entry to its Go results together with
the log at exit.

Conventions:
* a Go `error` is `Option GoError` (`none` is `nil`);
* a Go slice that may be `nil` is `Slice α` (`none` is the nil slice);
* text is a sequence of Unicode code points (`String`); the binary string
  produced by `rueidis.VectorString32` is a sequence of bytes;
* a `float32` is represented by its IEEE-754 bit pattern (a number below `2^32`).
-/

set_option linter.dupNamespace false

namespace RedisearchVector

/-! ## Go errors -/

/-- Go error values: a plain message (`errors.New`, `fmt.Errorf` without `%w`)
or a message with a wrapped cause (`fmt.Errorf` with one `%w`). -/
inductive GoError where
  | errorString (s : String)
  | wrapError (msg : String) (err : GoError)
  deriving DecidableEq

/-- Method `Error()` of an error value. -/
def GoError.Error : GoError → String
  | .errorString s => s
  | .wrapError msg _ => msg

/-- Method `Unwrap()`: the wrapped cause, if any. -/
def GoError.Unwrap : GoError → Option GoError
  | .errorString _ => none
  | .wrapError _ err => some err

/-- The call `fmt.Errorf(pre + "%w", err)` for a format whose only verb is a
final `%w`: the message is the prefix followed by the cause's message and the
cause is kept for `Unwrap`. -/
def Errorf_w (pre : String) (err : GoError) : GoError :=
  .wrapError (pre ++ err.Error) err

/-- The call `fmt.Errorf(pre + "%s: %w", s, err)`. -/
def Errorf_s_w (pre s : String) (err : GoError) : GoError :=
  .wrapError (pre ++ s ++ ": " ++ err.Error) err

/-! ## Values -/

/-- Go slice value; `none` is the nil slice. -/
abbrev Slice (α : Type) := Option (List α)

/-- Builtin `len` on a slice. -/
def Slice.len {α : Type} : Slice α → Nat
  | none => 0
  | some l => l.length

/-- Elements of a slice; the nil slice has none. -/
def Slice.toList {α : Type} : Slice α → List α
  | none => []
  | some l => l

/-- Bit pattern of a `float32` (`math.Float32bits`). -/
abbrev Float32 := Nat

/-- The `float32` constant `1.0`. -/
def f32_one : Float32 := 0x3F800000

/-- Values stored behind `interface{}` in documents, parameters and attributes. -/
inductive Value where
  | str (s : String)
  | bin (bytes : List Nat)
  | int (n : Int)
  deriving DecidableEq

/-- Go `map[string]interface{}` as an association list. -/
abbrev Props := List (String × Value)

/-- Map assignment `m[name] = value`. -/
def Props.set (m : Props) (name : String) (value : Value) : Props :=
  m.filter (fun kv => kv.1 != name) ++ [(name, value)]

/-- Map lookup `m[name]`. -/
def Props.get (m : Props) (name : String) : Option Value :=
  (m.find? (fun kv => kv.1 == name)).map Prod.snd

/-! ## Constants for configuration (source lines 17-25) -/

def INDEX_NAME : String := "MY_INDEX"
def DIMS : Nat := 1536
def DB : Nat := 0
def API_KEY : String := "SOME_OPENAI_API_KEY"
/-- Duration `30 * time.Second` in nanoseconds. -/
def TIMEOUT : Nat := 30 * 1000000000
def ADDRESS : String := "localhost:6379"
def PASSWORD : String := "secrete_password"

/-! ## Library functions used by the program -/

/-- Go `unicode.IsSpace`: the Unicode White_Space property. -/
def IsSpace (r : Char) : Bool :=
  let n := r.toNat
  (0x0009 ≤ n && n ≤ 0x000d) || n == 0x0020 || n == 0x0085 || n == 0x00a0 ||
  n == 0x1680 || (0x2000 ≤ n && n ≤ 0x200a) || n == 0x2028 || n == 0x2029 ||
  n == 0x202f || n == 0x205f || n == 0x3000

/-- Go `strings.TrimSpace`: the string without its leading and trailing white space. -/
def TrimSpace (s : String) : String :=
  ⟨((s.data.dropWhile IsSpace).reverse.dropWhile IsSpace).reverse⟩

/-- Little-endian bytes of a 32-bit pattern (`binary.LittleEndian.PutUint32`). -/
def putUint32 (b : Nat) : List Nat :=
  [b % 256, b / 256 % 256, b / 65536 % 256, b / 16777216 % 256]

/-- Go `rueidis.VectorString32`: four little-endian bytes for each component. -/
def VectorString32 (v : Slice Float32) : List Nat :=
  match v with
  | none => []
  | some l => l.flatMap putUint32

/-! ## The embedding provider (`go-openai`) -/

inductive EmbeddingModel where
  | AdaEmbeddingV2
  deriving DecidableEq

/-- Fields of `openai.EmbeddingRequest` the program sets. -/
structure EmbeddingRequest where
  Input : List String
  Model : EmbeddingModel
  deriving DecidableEq

/-- One entry of `openai.EmbeddingResponse.Data`. -/
structure Embedding where
  Embedding : Slice Float32
  Index : Int
  deriving DecidableEq

/-- Part of `openai.EmbeddingResponse` the program reads. -/
structure EmbeddingResponse where
  Data : Slice Embedding
  deriving DecidableEq

/-- Result of a Go call: a normal return or a run-time panic. -/
inductive Outcome (α : Type) where
  | ret (a : α)
  | panic (msg : String)
  deriving DecidableEq

/-! ## The index client (package `redisearch`) -/

/-- Modelled from the spec: type `redisearch.Algorithm` is not among the
sources; the indexing algorithm of a vector field. -/
inductive Algorithm where
  | Flat
  | HNSW
  deriving DecidableEq

/-- Modelled from the spec: type `redisearch.TextFieldOptions` is not among the
sources; these are the fields the program sets (not stemmed, not indexed), the
others keep their zero value. -/
structure TextFieldOptions where
  NoStem : Bool
  NoIndex : Bool
  deriving DecidableEq

/-- Modelled from the spec: type `redisearch.VectorFieldOptions` is not among
the sources; algorithm and attributes (dimensions, metric, element type). -/
structure VectorFieldOptions where
  Algorithm : Algorithm
  Attributes : Props
  deriving DecidableEq

/-- Modelled from the spec: the options of a field descriptor, by kind of field. -/
inductive FieldOptions where
  | text (o : TextFieldOptions)
  | vector (o : VectorFieldOptions)
  deriving DecidableEq

/-- Modelled from the spec: type `redisearch.Field` is not among the sources;
a field descriptor is a name with the options of its kind. -/
structure Field where
  Name : String
  Options : FieldOptions
  deriving DecidableEq

/-- Modelled from the spec: type `redisearch.Options` is not among the sources;
the program only uses `redisearch.DefaultOptions`. -/
inductive Options where
  | DefaultOptions
  deriving DecidableEq

/-- Modelled from the spec: type `redisearch.Schema` is not among the sources;
a set of field descriptors with the index options. -/
structure Schema where
  Fields : List Field
  Options : Options
  deriving DecidableEq

/-- Modelled from the spec: `redisearch.NewSchema` is not among the sources;
a schema is a named set of field descriptors, empty when new. -/
def NewSchema (opts : Options) : Schema :=
  { Fields := [], Options := opts }

/-- Modelled from the spec: `Schema.AddField` is not among the sources; it adds
one field descriptor after those already present. -/
def Schema.AddField (m : Schema) (f : Field) : Schema :=
  { m with Fields := m.Fields ++ [f] }

/-- Modelled from the spec: `redisearch.NewTextFieldOptions` is not among the
sources; a raw text field with the given options. -/
def NewTextFieldOptions (name : String) (opts : TextFieldOptions) : Field :=
  { Name := name, Options := .text opts }

/-- Modelled from the spec: `redisearch.NewVectorFieldOptions` is not among the
sources; a vector field with the given algorithm and attributes. -/
def NewVectorFieldOptions (name : String) (opts : VectorFieldOptions) : Field :=
  { Name := name, Options := .vector opts }

/-- Modelled from the spec: type `redisearch.Document` is not among the
sources; identifier, score, payload and a mapping from field names to values. -/
structure Document where
  Id : String
  Score : Float32
  Payload : Slice Nat
  Properties : Props
  deriving DecidableEq

/-- Modelled from the spec: `redisearch.NewDocument` is not among the sources;
a document is an identifier, a score and a mapping from field names to values,
empty when new. -/
def NewDocument (id : String) (score : Float32) : Document :=
  { Id := id, Score := score, Payload := none, Properties := [] }

/-- Modelled from the spec: `Document.Set` is not among the sources; it stores
a value under a field name and returns the document. -/
def Document.Set (d : Document) (name : String) (value : Value) : Document :=
  { d with Properties := d.Properties.set name value }

/-- Modelled from the spec: type `redisearch.SortingKey` is not among the
sources; the field to sort by and whether the order is ascending. -/
structure SortingKey where
  Field : String
  Ascending : Bool
  deriving DecidableEq

/-- Modelled from the spec: type `redisearch.Paging` is not among the sources;
the offset of the first result and the number of results of a page. -/
structure Paging where
  Offset : Int
  Num : Int
  deriving DecidableEq

/-- Modelled from the spec: type `redisearch.Query` is not among the sources;
these are the fields the program sets and the paging set by `Limit`, the
others keep their zero value. -/
structure Query where
  Raw : String
  Params : Props
  Dialect : Int
  SortBy : Option SortingKey
  ReturnFields : List String
  Paging : Paging
  deriving DecidableEq

/-- Modelled from the spec: `Query.Limit` is not among the sources; it sets the
paging of the request to `num` results starting at `offset`. -/
def Query.Limit (q : Query) (offset num : Int) : Query :=
  { q with Paging := { Offset := offset, Num := num } }

/-! ## Environment and log -/

/-- One interaction of the program with the outside, with the answer it got. -/
inductive Event where
  | uuidNew (key : String)
  | createEmbeddings (apiKey : String) (timeout : Nat) (req : EmbeddingRequest)
      (resp : EmbeddingResponse) (err : Option GoError)
  | drop (err : Option GoError)
  | createIndex (sc : Schema) (err : Option GoError)
  | index (docs : List Document) (err : Option GoError)
  | search (q : Query) (docs : Slice Document) (total : Int) (err : Option GoError)
  | sleep (ns : Nat)
  | print (s : String)
  deriving DecidableEq

/-- Chronological record of the interactions so far. -/
abbrev Log := List Event

/-- The outside world: what each external call answers after a given history.
`Drop`, `CreateIndex`, `Index` and `Search` are the methods of the
`*redisearch.Client` named `database`; `CreateEmbeddings` is the provider
behind `openai.Client`; `uuidNew` is `uuid.New().String()`. -/
structure Env where
  uuidNew : Log → String
  CreateEmbeddings : Log → String → Nat → EmbeddingRequest → EmbeddingResponse × Option GoError
  Drop : Log → Option GoError
  CreateIndex : Log → Schema → Option GoError
  Index : Log → List Document → Option GoError
  Search : Log → Query → Slice Document × Int × Option GoError

/-! ## The program -/

/-- The schema built at source lines 44-53. -/
def schema : Schema :=
  ((NewSchema .DefaultOptions).AddField
    (NewTextFieldOptions "chat" { NoStem := true, NoIndex := true })).AddField
    (NewVectorFieldOptions "chat_embeddings"
      { Algorithm := .Flat
        Attributes := [("DIM", .int DIMS), ("DISTANCE_METRIC", .str "COSINE"),
          ("TYPE", .str "FLOAT32")] })

/-- Function `CreateSchema` (source lines 43-62). -/
def CreateSchema (env : Env) (log : Log) : Option GoError × Log :=
  let sc := schema
  let log1 := log ++ [Event.drop (env.Drop log)]
  let r := env.CreateIndex log1 sc
  let log2 := log1 ++ [Event.createIndex sc r]
  match r with
  | some err => (some (Errorf_w "failed to create index: " err), log2)
  | none => (none, log2)

/-- Function `ApiEmbedding` (source lines 84-110). -/
def ApiEmbedding (env : Env) (input : String) (log : Log) :
    Outcome (Slice Float32 × Option GoError) × Log :=
  let input := TrimSpace input
  if input = "" then
    (.ret (none, some (.errorString "input is empty")), log)
  else
    let req : EmbeddingRequest := { Input := [input], Model := .AdaEmbeddingV2 }
    let r := env.CreateEmbeddings log API_KEY TIMEOUT req
    let log1 := log ++ [Event.createEmbeddings API_KEY TIMEOUT req r.1 r.2]
    match r.2 with
    | some err => (.ret (none, some (Errorf_w "error creating embeddings: " err)), log1)
    | none =>
      if r.1.Data.len = 0 then
        (.ret (none, some (.errorString "no embeddings found for the input")), log1)
      else
        match r.1.Data with
        | some (d :: _) => (.ret (d.Embedding, none), log1)
        | _ => (.panic "index out of range [0] with length 0", log1)

/-- Function `AddVector` (source lines 65-81).  `uuid.New()` is taken to return
(it panics only when the system's random source fails). -/
def AddVector (env : Env) (chat : String) (log : Log) : Outcome (Option GoError) × Log :=
  let key := env.uuidNew log
  let log1 := log ++ [Event.uuidNew key]
  match ApiEmbedding env chat log1 with
  | (.panic msg, log2) => (.panic msg, log2)
  | (.ret (_, some err), log2) =>
    (.ret (some (Errorf_w "failed to generate embedding: " err)), log2)
  | (.ret (vector, none), log2) =>
    -- both `Set` calls store into the one map of `doc`
    let doc := ((NewDocument key f32_one).Set "chat" (.str chat)).Set "chat_embeddings"
      (.bin (VectorString32 vector))
    let r := env.Index log2 [doc]
    let log3 := log2 ++ [Event.index [doc] r]
    match r with
    | some err => (.ret (some (Errorf_w "failed to index document: " err)), log3)
    | none => (.ret none, log3)

/-- The sample data of `AddData` (source lines 115-159): category and texts. -/
def data : List (String × List String) :=
  [ ("Technology and Innovation",
      [ "Artificial intelligence is transforming industries by automating tasks and enhancing decision-making.",
        "The rise of virtual reality has opened new possibilities for remote learning and immersive gaming.",
        "Self-driving cars are poised to revolutionize the way we commute, reducing accidents and traffic congestion.",
        "Wearable technology, like smartwatches, is making it easier for people to monitor their health metrics in real time.",
        "Advances in renewable energy technologies are crucial for combating climate change and reducing global reliance on fossil fuels." ]),
    ("Travel and Exploration",
      [ "Backpacking across Europe offers an intimate glimpse into the rich history and diverse cultures of the continent.",
        "The popularity of eco-tourism is helping to preserve natural habitats while providing travelers with unique experiences.",
        "Exploring the coral reefs of Australia is a breathtaking adventure that highlights the beauty of marine biodiversity.",
        "Historical landmarks, from the Great Wall of China to the pyramids of Egypt, tell stories of ancient civilizations.",
        "Culinary tours in cities like Paris and Tokyo allow travelers to explore the local flavors and culinary traditions." ]),
    ("Health and Wellness",
      [ "Regular exercise is key to maintaining physical health and improving overall well-being.",
        "Mental health is gaining recognition as a critical aspect of overall health, with mindfulness and meditation becoming more popular.",
        "The benefits of a balanced diet are well-documented, including improved energy levels and better immune system function.",
        "Sleep hygiene plays a crucial role in physical and mental health, impacting mood, cognition, and performance.",
        "The rise of telemedicine is making healthcare more accessible, allowing patients to consult with doctors remotely." ]),
    ("Education and Learning",
      [ "Online education platforms are expanding access to learning opportunities for people around the world.",
        "The integration of technology in classrooms is enhancing interactive learning and engagement among students.",
        "Lifelong learning is essential for career development and staying current with evolving industry trends.",
        "Critical thinking and problem-solving are fundamental skills that education systems aim to instill in students.",
        "Bilingual education has numerous cognitive benefits, including better memory and enhanced problem-solving skills." ]) ]

/-- Duration `time.Second * 2` in nanoseconds. -/
def sleepTime : Nat := 1000000000 * 2

/-- Inner loop of `AddData` (source lines 163-168) over the texts of one category. -/
def addTexts (env : Env) (category : String) :
    List String → Log → Outcome (Option GoError) × Log
  | [], log => (.ret none, log)
  | text :: rest, log =>
    match AddVector env text log with
    | (.panic msg, log1) => (.panic msg, log1)
    | (.ret (some err), log1) =>
      (.ret (some (Errorf_s_w "failed to add data to vector cache for category " category err)),
        log1)
    | (.ret none, log1) => addTexts env category rest (log1 ++ [Event.sleep sleepTime])

/-- Outer loop of `AddData` (source lines 161-169) over the categories. -/
def addCategories (env : Env) :
    List (String × List String) → Log → Outcome (Option GoError) × Log
  | [], log => (.ret none, log)
  | category :: rest, log =>
    let log1 := log ++ [Event.print ("Adding data for category: " ++ category.1 ++ "\n")]
    match addTexts env category.1 category.2 log1 with
    | (.ret none, log2) => addCategories env rest log2
    | stop => stop

/-- Function `AddData` (source lines 113-173). -/
def AddData (env : Env) (log : Log) : Outcome (Option GoError) × Log :=
  match addCategories env data log with
  | (.ret none, log1) => (.ret none, log1 ++ [Event.print "All data loaded successfully!\n"])
  | stop => stop

/-- The request `query` built by `SearchInVectorCache` (source lines 177-191).
The literal of `SortingKey` names `Field` only, so `Ascending` has the zero
value `false`; `Paging` is zero until `Limit` sets it. -/
def searchQuery (userQueryEmbedding : Slice Float32) : Query :=
  let maxLimit : Int := 5
  let userQueryParsed := VectorString32 userQueryEmbedding
  let r : Query :=
    { Raw := "(*)=>[KNN 10 @chat_embeddings $query_vector AS vector_dist]"
      Params := [("query_vector", .bin userQueryParsed)]
      Dialect := 2
      SortBy := some { Field := "vector_dist", Ascending := false }
      ReturnFields := ["chat", "vector_dist"]
      Paging := { Offset := 0, Num := 0 } }
  r.Limit 0 maxLimit

/-- Function `SearchInVectorCache` (source lines 176-198). -/
def SearchInVectorCache (env : Env) (userQueryEmbedding : Slice Float32) (log : Log) :
    (Slice Document × Int × Option GoError) × Log :=
  let query := searchQuery userQueryEmbedding
  let res := env.Search log query
  let log1 := log ++ [Event.search query res.1 res.2.1 res.2.2]
  match res.2.2 with
  | some err => ((none, -1, some (Errorf_w "failed to perform search: " err)), log1)
  | none => ((res.1, res.2.1, none), log1)

/-! ## Observations on logs -/

/-- Documents an event submitted to the index (whatever the answer). -/
def Event.submitted : Event → List Document
  | .index docs _ => docs
  | _ => []

/-- Documents an event wrote to the index (submitted and accepted). -/
def Event.written : Event → List Document
  | .index docs none => docs
  | _ => []

/-- Texts an event sent to the embedding provider. -/
def Event.embedded : Event → List String
  | .createEmbeddings _ _ req _ _ => req.Input
  | _ => []

/-- Duration an event slept. -/
def Event.slept : Event → List Nat
  | .sleep ns => [ns]
  | _ => []

/-- All sleeps, in order (nanoseconds). -/
def slept (log : Log) : List Nat := log.flatMap Event.slept

/-- All documents submitted to the index, in order. -/
def submitted (log : Log) : List Document := log.flatMap Event.submitted

/-- All documents written to the index, in order. -/
def written (log : Log) : List Document := log.flatMap Event.written

/-- All texts sent to the embedding provider, in order. -/
def embedded (log : Log) : List String := log.flatMap Event.embedded

/-- The "chat" fields of a list of documents. -/
def chats (docs : List Document) : List (Option Value) :=
  docs.map (fun d => d.Properties.get "chat")

/-- The sample texts of `AddData` in the order of the two loops, each with its category. -/
def corpus : List (String × String) :=
  data.flatMap (fun category => category.2.map (fun text => (category.1, text)))

/-- Post-condition of the loading loops for the texts `ps` (each with its
category), entered with written chats `w0`, `n0` submitted documents and
embedded texts `e0`: either every text was embedded and written, in order, or
`AddVector` failed at the first text not written and the loops stopped there. -/
def Loaded (env : Env) (ps : List (String × String)) (w0 : List (Option Value)) (n0 : Nat)
    (e0 : List String) (out : Outcome (Option GoError) × Log) : Prop :=
  (out.1 = .ret none ∧
    chats (written out.2) = w0 ++ ps.map (fun p => some (.str p.2)) ∧
    (submitted out.2).length = n0 + ps.length ∧
    embedded out.2 = e0 ++ ps.map (fun p => TrimSpace p.2)) ∨
  (∃ k p logk errV, ps[k]? = some p ∧
    AddVector env p.2 logk = (.ret (some errV), out.2) ∧
    out.1 = .ret (some (Errorf_s_w "failed to add data to vector cache for category " p.1 errV)) ∧
    chats (written logk) = w0 ++ (ps.take k).map (fun p => some (.str p.2)) ∧
    (submitted logk).length = n0 + k ∧
    embedded logk = e0 ++ (ps.take k).map (fun p => TrimSpace p.2))

/-! ## Distance values of search results -/

/-- Value of a string of decimal digits; `none` if it is empty or holds another character. -/
def digitsValue (cs : List Char) : Option Nat :=
  if cs = [] then none
  else cs.foldl (fun acc c =>
    match acc with
    | none => none
    | some n => if c.isDigit then some (n * 10 + (c.toNat - 48)) else none) (some 0)

/-- Reading of a plain decimal numeral: "12.345" is `(12345, 3)`, that is `12345 / 10 ^ 3`. -/
def parseDecimal (s : String) : Option (Nat × Nat) :=
  let ip := s.data.takeWhile (fun c => c != '.')
  match s.data.dropWhile (fun c => c != '.') with
  | [] => (digitsValue ip).map (fun a => (a, 0))
  | _ :: fp =>
    match digitsValue ip, digitsValue fp with
    | some a, some b => some (a * 10 ^ fp.length + b, fp.length)
    | _, _ => none

/-- The distance value of a search result: its "vector_dist" field read as a decimal. -/
def Document.distance (d : Document) : Option (Nat × Nat) :=
  match d.Properties.get "vector_dist" with
  | some (.str s) => parseDecimal s
  | _ => none

/-- Order of two results by distance value (`m / 10 ^ k` against `n / 10 ^ j`). -/
def distanceLE (a b : Document) : Bool :=
  match a.distance, b.distance with
  | some (m, k), some (n, j) => decide (m * 10 ^ j ≤ n * 10 ^ k)
  | _, _ => false

/-- Results in non-decreasing order of their distance value. -/
abbrev sortedByDistance (docs : List Document) : Prop :=
  docs.Pairwise (fun a b => distanceLE a b = true)

/-! ## Sample environments -/

/-- A search result as the index returns it for `searchQuery`. -/
def resultDoc (id chat dist : String) : Document :=
  { Id := id, Score := f32_one, Payload := none,
    Properties := [("chat", .str chat), ("vector_dist", .str dist)] }

/-- Six results in decreasing order of distance. -/
def sixResults : List Document :=
  [ resultDoc "d6" "f" "0.6", resultDoc "d5" "e" "0.5", resultDoc "d4" "d" "0.4",
    resultDoc "d3" "c" "0.3", resultDoc "d2" "b" "0.2", resultDoc "d1" "a" "0.1" ]

/-- An environment in which every call succeeds except the drop of the (absent)
index; the provider answers with one embedding of three components and the
index answers a search with six results in decreasing order of distance. -/
def sampleEnv : Env where
  uuidNew := fun _ => "6ba7b810-9dad-41d1-80b4-00c04fd430c8"
  CreateEmbeddings := fun _ _ _ _ =>
    ({ Data := some [{ Embedding := some [0x3F800000, 0, 0x40000000], Index := 0 }] }, none)
  Drop := fun _ => some (.errorString "Unknown Index name")
  CreateIndex := fun _ _ => none
  Index := fun _ _ => none
  Search := fun _ _ => (some sixResults, 6, none)

/-- As `sampleEnv`, with a provider that answers with `DIMS` components and an
index that answers a search with two results in increasing order of distance. -/
def fullEnv : Env :=
  { sampleEnv with
    CreateEmbeddings := fun _ _ _ _ =>
      ({ Data := some [{ Embedding := some (List.replicate DIMS 0), Index := 0 }] }, none)
    Search := fun _ _ => (some [resultDoc "d1" "a" "0.1", resultDoc "d2" "b" "0.25"], 2, none) }

/-! ## Auxiliary facts -/

theorem Errorf_w_Unwrap (pre : String) (err : GoError) :
    (Errorf_w pre err).Unwrap = some err := rfl

theorem Errorf_s_w_Unwrap (pre s : String) (err : GoError) :
    (Errorf_s_w pre s err).Unwrap = some err := rfl

theorem TrimSpace_of_all_space (s : String) (h : ∀ c ∈ s.data, IsSpace c = true) :
    TrimSpace s = "" := by
  have h1 : s.data.dropWhile IsSpace = [] := List.dropWhile_eq_nil_iff.mpr h
  simp [TrimSpace, h1]

theorem submitted_append (l₁ l₂ : Log) : submitted (l₁ ++ l₂) = submitted l₁ ++ submitted l₂ := by
  simp [submitted]

theorem written_append (l₁ l₂ : Log) : written (l₁ ++ l₂) = written l₁ ++ written l₂ := by
  simp [written]

theorem embedded_append (l₁ l₂ : Log) : embedded (l₁ ++ l₂) = embedded l₁ ++ embedded l₂ := by
  simp [embedded]

theorem chats_append (l₁ l₂ : List Document) : chats (l₁ ++ l₂) = chats l₁ ++ chats l₂ := by
  simp [chats]

/-- The two ways `ApiEmbedding` leaves the log: untouched (blank input) or
with one provider call for the trimmed input; it never panics. -/
theorem ApiEmbedding_log (env : Env) (input : String) (log : Log) :
    ∃ vec err, (ApiEmbedding env input log).1 = .ret (vec, err) ∧
      ((err ≠ none ∧ TrimSpace input = "" ∧ (ApiEmbedding env input log).2 = log) ∨
       ∃ resp perr, TrimSpace input ≠ "" ∧ (ApiEmbedding env input log).2 =
        log ++ [Event.createEmbeddings API_KEY TIMEOUT
          { Input := [TrimSpace input], Model := .AdaEmbeddingV2 } resp perr]) := by
  by_cases ht : TrimSpace input = ""
  · exact ⟨none, some (.errorString "input is empty"), by simp [ApiEmbedding, ht],
      Or.inl ⟨by simp, ht, by simp [ApiEmbedding, ht]⟩⟩
  · cases hr : (env.CreateEmbeddings log API_KEY TIMEOUT
        { Input := [TrimSpace input], Model := .AdaEmbeddingV2 }).2 with
    | some e =>
      exact ⟨none, some (Errorf_w "error creating embeddings: " e),
        by simp [ApiEmbedding, ht, hr], Or.inr ⟨_, _, ht, by simp [ApiEmbedding, ht, hr]; exact ⟨rfl, rfl⟩⟩⟩
    | none =>
      cases hd : (env.CreateEmbeddings log API_KEY TIMEOUT
          { Input := [TrimSpace input], Model := .AdaEmbeddingV2 }).1.Data with
      | none =>
        exact ⟨none, some (.errorString "no embeddings found for the input"),
          by simp [ApiEmbedding, ht, hr, hd, Slice.len],
          Or.inr ⟨_, _, ht, by simp [ApiEmbedding, ht, hr, hd, Slice.len]; exact ⟨rfl, rfl⟩⟩⟩
      | some l =>
        cases l with
        | nil =>
          exact ⟨none, some (.errorString "no embeddings found for the input"),
            by simp [ApiEmbedding, ht, hr, hd, Slice.len],
            Or.inr ⟨_, _, ht, by simp [ApiEmbedding, ht, hr, hd, Slice.len]; exact ⟨rfl, rfl⟩⟩⟩
        | cons d ds =>
          exact ⟨d.Embedding, none, by simp [ApiEmbedding, ht, hr, hd, Slice.len],
            Or.inr ⟨_, _, ht, by simp [ApiEmbedding, ht, hr, hd, Slice.len]; exact ⟨rfl, rfl⟩⟩⟩


/-- Full case analysis of `ApiEmbedding`. -/
theorem ApiEmbedding_spec (env : Env) (input : String) (log : Log) :
    let t := TrimSpace input
    let r := env.CreateEmbeddings log API_KEY TIMEOUT { Input := [t], Model := .AdaEmbeddingV2 }
    ∃ vec err, (ApiEmbedding env input log).1 = .ret (vec, err) ∧
      (err = none ↔ (t ≠ "" ∧ r.2 = none ∧ 0 < r.1.Data.len)) ∧
      (err = none → ∃ d ds, r.1.Data = some (d :: ds) ∧ vec = d.Embedding) ∧
      (err ≠ none → vec = none) ∧
      (t ≠ "" → ∀ e, r.2 = some e →
        err = some (Errorf_w "error creating embeddings: " e) ∧
        (Errorf_w "error creating embeddings: " e).Unwrap = some e) := by
  intro t r
  by_cases ht : TrimSpace input = ""
  · exact ⟨none, some (.errorString "input is empty"), by simp [ApiEmbedding, ht],
      by simp [t, ht]⟩
  · cases hr : (env.CreateEmbeddings log API_KEY TIMEOUT
        { Input := [TrimSpace input], Model := .AdaEmbeddingV2 }).2 with
    | some e =>
      exact ⟨none, some (Errorf_w "error creating embeddings: " e),
        by simp [ApiEmbedding, ht, hr], by simp [t, r, hr, Errorf_w_Unwrap]⟩
    | none =>
      cases hd : (env.CreateEmbeddings log API_KEY TIMEOUT
          { Input := [TrimSpace input], Model := .AdaEmbeddingV2 }).1.Data with
      | none =>
        exact ⟨none, some (.errorString "no embeddings found for the input"),
          by simp [ApiEmbedding, ht, hr, hd, Slice.len], by simp [t, r, hr, hd, Slice.len]⟩
      | some l =>
        cases l with
        | nil =>
          exact ⟨none, some (.errorString "no embeddings found for the input"),
            by simp [ApiEmbedding, ht, hr, hd, Slice.len], by simp [t, r, hr, hd, Slice.len]⟩
        | cons d ds =>
          exact ⟨d.Embedding, none,
            by simp [ApiEmbedding, ht, hr, hd, Slice.len], by simp [t, r, ht, hr, hd, Slice.len]⟩

/-- The document `AddVector` builds from a key, the raw text and the vector. -/
theorem AddVector_doc (key chat : String) (vector : Slice Float32) :
    ((NewDocument key f32_one).Set "chat" (.str chat)).Set "chat_embeddings"
        (.bin (VectorString32 vector)) =
      { Id := key, Score := f32_one, Payload := none,
        Properties := [("chat", .str chat), ("chat_embeddings", .bin (VectorString32 vector))] } := by
  simp [NewDocument, Document.Set, Props.set]

/-- Full case analysis of `AddVector` in terms of the embedding of its text. -/
theorem AddVector_spec (env : Env) (chat : String) (log : Log) :
    let key := env.uuidNew log
    let emb := ApiEmbedding env chat (log ++ [Event.uuidNew key])
    let out := AddVector env chat log
    (∃ vec err, emb.1 = .ret (vec, err)) ∧
    (∀ vec, emb.1 = .ret (vec, none) →
      let doc : Document :=
        { Id := key, Score := f32_one, Payload := none,
          Properties := [("chat", .str chat), ("chat_embeddings", .bin (VectorString32 vec))] }
      let w := env.Index emb.2 [doc]
      out.2 = emb.2 ++ [Event.index [doc] w] ∧
      submitted out.2 = submitted log ++ [doc] ∧
      out.1 = .ret (w.map (Errorf_w "failed to index document: ")) ∧
      (∀ e, w = some e → (Errorf_w "failed to index document: " e).Unwrap = some e)) ∧
    (∀ vec e, emb.1 = .ret (vec, some e) →
      out.2 = emb.2 ∧
      submitted out.2 = submitted log ∧
      out.1 = .ret (some (Errorf_w "failed to generate embedding: " e)) ∧
      (Errorf_w "failed to generate embedding: " e).Unwrap = some e) := by
  intro key emb out
  obtain ⟨vec, err, hret, hlog⟩ := ApiEmbedding_log env chat (log ++ [Event.uuidNew key])
  have hsub : submitted emb.2 = submitted log := by
    rcases hlog with ⟨_, _, h⟩ | ⟨resp, perr, _, h⟩
    · simp only [emb, h, submitted_append]
      simp [submitted, Event.submitted]
    · simp only [emb, h, submitted_append]
      simp [submitted, Event.submitted]
  refine ⟨⟨vec, err, hret⟩, ?_, ?_⟩
  · intro vec' hv doc w
    have hA : AddVector env chat log =
        (.ret (w.map (Errorf_w "failed to index document: ")), emb.2 ++ [Event.index [doc] w]) := by
      have hpair : ApiEmbedding env chat (log ++ [Event.uuidNew key]) = (.ret (vec', none), emb.2) :=
        Prod.ext hv rfl
      simp only [AddVector, hpair, AddVector_doc]
      cases hw : env.Index emb.2 [doc] <;> simp [w, doc, key, hw]
    refine ⟨by simp [out, hA], ?_, by simp [out, hA], fun e _ => rfl⟩
    simp only [out, hA, submitted_append, hsub]
    simp [submitted, Event.submitted]
  · intro vec' e hv
    have hA : AddVector env chat log =
        (.ret (some (Errorf_w "failed to generate embedding: " e)), emb.2) := by
      have hpair : ApiEmbedding env chat (log ++ [Event.uuidNew key]) = (.ret (vec', some e), emb.2) :=
        Prod.ext hv rfl
      simp only [AddVector, hpair]
    exact ⟨by simp [out, hA], by simp [out, hA, hsub], by simp [out, hA], rfl⟩

/-- Effect of one `AddVector` call on what has been written, submitted and
embedded: on success one more document with the raw text, on failure nothing
more written. -/
theorem AddVector_cases (env : Env) (chat : String) (log : Log) :
    (∃ log', AddVector env chat log = (.ret none, log') ∧
      chats (written log') = chats (written log) ++ [some (.str chat)] ∧
      (submitted log').length = (submitted log).length + 1 ∧
      embedded log' = embedded log ++ [TrimSpace chat]) ∨
    (∃ e log', AddVector env chat log = (.ret (some e), log') ∧
      written log' = written log ∧
      (submitted log').length ≤ (submitted log).length + 1 ∧
      embedded log' = embedded log ++ (if TrimSpace chat = "" then [] else [TrimSpace chat])) := by
  obtain ⟨_, hok, hfail⟩ := AddVector_spec env chat log
  obtain ⟨vec, err, hret, hlog⟩ :=
    ApiEmbedding_log env chat (log ++ [Event.uuidNew (env.uuidNew log)])
  have hw : written (ApiEmbedding env chat (log ++ [Event.uuidNew (env.uuidNew log)])).2 =
      written log := by
    rcases hlog with ⟨_, _, h⟩ | ⟨resp, perr, _, h⟩ <;>
      simp [h, written_append] <;> simp [written, Event.written]
  have he : embedded (ApiEmbedding env chat (log ++ [Event.uuidNew (env.uuidNew log)])).2 =
      embedded log ++ (if TrimSpace chat = "" then [] else [TrimSpace chat]) := by
    rcases hlog with ⟨_, ht, h⟩ | ⟨resp, perr, ht, h⟩
    · simp [h, ht, embedded_append]
      simp [embedded, Event.embedded]
    · simp [h, ht, embedded_append]
      simp [embedded, Event.embedded]
  cases err with
  | some e =>
    obtain ⟨h2, hs, h1, _⟩ := hfail vec e hret
    right
    refine ⟨_, (AddVector env chat log).2, Prod.ext h1 rfl, ?_, ?_, ?_⟩
    · rw [h2, hw]
    · rw [hs]; omega
    · rw [h2]; exact he
  | none =>
    obtain ⟨h2, hs, h1, _⟩ := hok vec hret
    have he' : embedded (ApiEmbedding env chat (log ++ [Event.uuidNew (env.uuidNew log)])).2 =
        embedded log ++ [TrimSpace chat] := by
      rcases hlog with ⟨hne, _⟩ | ⟨resp, perr, _, h⟩
      · exact absurd rfl hne
      · simp [h, embedded_append]
        simp [embedded, Event.embedded]
    cases hidx : env.Index (ApiEmbedding env chat (log ++ [Event.uuidNew (env.uuidNew log)])).2
        [{ Id := env.uuidNew log, Score := f32_one, Payload := none,
           Properties := [("chat", .str chat), ("chat_embeddings", .bin (VectorString32 vec))] }] with
    | none =>
      left
      rw [hidx] at h1 h2
      refine ⟨(AddVector env chat log).2, Prod.ext h1 rfl, ?_, ?_, ?_⟩
      · rw [h2, written_append, hw, chats_append]
        simp [written, Event.written, chats, Props.get]
      · rw [hs]; simp
      · rw [h2, embedded_append, he']
        simp [embedded, Event.embedded]
    | some e =>
      right
      rw [hidx] at h1 h2
      refine ⟨_, (AddVector env chat log).2, Prod.ext h1 rfl, ?_, ?_, ?_⟩
      · rw [h2, written_append, hw]
        simp [written, Event.written]
      · rw [hs]; simp
      · rw [h2, embedded_append, he]
        simp [embedded, Event.embedded]

theorem Loaded_append (env : Env) (ps₁ ps₂ : List (String × String)) (w0 : List (Option Value))
    (n0 : Nat) (e0 : List String) (out : Outcome (Option GoError) × Log)
    (h : Loaded env ps₂ (w0 ++ ps₁.map (fun p => some (.str p.2))) (n0 + ps₁.length)
      (e0 ++ ps₁.map (fun p => TrimSpace p.2)) out) :
    Loaded env (ps₁ ++ ps₂) w0 n0 e0 out := by
  rcases h with ⟨h1, h2, h3, h4⟩ | ⟨k, p, logk, errV, hk, hA, h1, h2, h3, h4⟩
  · left
    refine ⟨h1, ?_, ?_, ?_⟩
    · rw [h2]; simp
    · rw [h3]; simp; omega
    · rw [h4]; simp
  · right
    refine ⟨ps₁.length + k, p, logk, errV, ?_, hA, h1, ?_, ?_, ?_⟩
    · rw [List.getElem?_append_right (Nat.le_add_right _ _)]
      simpa using hk
    · rw [h2, List.take_append]; simp
    · rw [h3]; omega
    · rw [h4, List.take_append]; simp

theorem Loaded_append_left (env : Env) (ps₁ ps₂ : List (String × String))
    (w0 : List (Option Value)) (n0 : Nat) (e0 : List String)
    (out : Outcome (Option GoError) × Log) (h : Loaded env ps₁ w0 n0 e0 out)
    (hne : out.1 ≠ .ret none) : Loaded env (ps₁ ++ ps₂) w0 n0 e0 out := by
  rcases h with ⟨h1, _⟩ | ⟨k, p, logk, errV, hk, hA, h1, h2, h3, h4⟩
  · exact absurd h1 hne
  · have hlt : k < ps₁.length := (List.getElem?_eq_some.mp hk).1
    right
    refine ⟨k, p, logk, errV, ?_, hA, h1, ?_, h3, ?_⟩
    · rw [List.getElem?_append_left hlt]; exact hk
    · rw [h2, List.take_append_of_le_length (Nat.le_of_lt hlt)]
    · rw [h4, List.take_append_of_le_length (Nat.le_of_lt hlt)]

theorem addTexts_loaded (env : Env) (category : String) (texts : List String) :
    ∀ log : Log, Loaded env (texts.map (fun text => (category, text))) (chats (written log))
      (submitted log).length (embedded log) (addTexts env category texts log) := by
  induction texts with
  | nil =>
    intro log
    left
    simp [addTexts]
  | cons t rest ih =>
    intro log
    rcases AddVector_cases env t log with ⟨log', hA, hw, hs, he⟩ | ⟨e, log', hA, _⟩
    · have hstep : addTexts env category (t :: rest) log =
          addTexts env category rest (log' ++ [Event.sleep sleepTime]) := by
        simp [addTexts, hA]
      have h := ih (log' ++ [Event.sleep sleepTime])
      have hw' : chats (written (log' ++ [Event.sleep sleepTime])) =
          chats (written log) ++ [some (.str t)] := by
        rw [written_append, chats_append, hw]; simp [written, Event.written, chats]
      have hs' : (submitted (log' ++ [Event.sleep sleepTime])).length =
          (submitted log).length + 1 := by
        rw [submitted_append, List.length_append, hs]; simp [submitted, Event.submitted]
      have he' : embedded (log' ++ [Event.sleep sleepTime]) =
          embedded log ++ [TrimSpace t] := by
        rw [embedded_append, he]; simp [embedded, Event.embedded]
      rw [hw', hs', he'] at h
      rw [hstep]
      exact Loaded_append env [(category, t)] _ _ _ _ _ h
    · right
      refine ⟨0, (category, t), log, e, by simp, ?_, ?_, by simp, by simp, by simp⟩
      · simp [addTexts, hA]
      · simp [addTexts, hA]

theorem addCategories_loaded (env : Env) (cats : List (String × List String)) :
    ∀ log : Log,
      Loaded env (cats.flatMap (fun category => category.2.map (fun text => (category.1, text))))
        (chats (written log)) (submitted log).length (embedded log)
        (addCategories env cats log) := by
  induction cats with
  | nil =>
    intro log
    left
    simp [addCategories]
  | cons c cs ih =>
    intro log
    have h := addTexts_loaded env c.1 c.2
      (log ++ [Event.print ("Adding data for category: " ++ c.1 ++ "\n")])
    have hw : chats (written (log ++ [Event.print ("Adding data for category: " ++ c.1 ++ "\n")])) =
        chats (written log) := by
      rw [written_append]; simp [written, Event.written]
    have hs : (submitted (log ++ [Event.print ("Adding data for category: " ++ c.1 ++ "\n")])).length =
        (submitted log).length := by
      rw [submitted_append]; simp [submitted, Event.submitted]
    have he : embedded (log ++ [Event.print ("Adding data for category: " ++ c.1 ++ "\n")]) =
        embedded log := by
      rw [embedded_append]; simp [embedded, Event.embedded]
    rw [hw, hs, he] at h
    rw [List.flatMap_cons]
    rcases hres : addTexts env c.1 c.2
      (log ++ [Event.print ("Adding data for category: " ++ c.1 ++ "\n")]) with ⟨o, l2⟩
    rw [hres] at h
    by_cases ho : o = .ret none
    · subst ho
      have hstep : addCategories env (c :: cs) log = addCategories env cs l2 := by
        simp [addCategories, hres]
      rw [hstep]
      rcases h with ⟨_, h2, h3, h4⟩ | ⟨k, p, logk, errV, _, _, h1, _⟩
      · have h' := ih l2
        simp only at h2 h3 h4
        rw [h2, h3, h4] at h'
        simp only [List.length_map] at h'
        have := Loaded_append env (c.2.map (fun text => (c.1, text))) _ _ _ _ _
          (by simpa using h')
        exact this
      · simp at h1
    · have hstep : addCategories env (c :: cs) log = (o, l2) := by
        simp only [addCategories, hres]
        split
        · rename_i heq
          simp only [Prod.mk.injEq] at heq
          exact absurd heq.1 ho
        · rfl
      rw [hstep]
      exact Loaded_append_left env _ _ _ _ _ _ h ho

theorem chats_length (docs : List Document) : (chats docs).length = docs.length := by
  simp [chats]

/-- Every sample text is non-empty and has no leading or trailing white space. -/
theorem corpus_trimmed : ∀ p ∈ corpus, TrimSpace p.2 = p.2 ∧ TrimSpace p.2 ≠ "" := by
  decide

theorem corpus_map_trim (k : Nat) :
    (corpus.take k).map (fun p => TrimSpace p.2) = (corpus.take k).map (fun p => p.2) :=
  List.map_congr_left (fun p hp => (corpus_trimmed p (List.mem_of_mem_take hp)).1)

/-- The two ways `AddData` ends, in terms of what has been written, submitted
and embedded. -/
theorem AddData_cases (env : Env) (log : Log) :
    let out := AddData env log
    (out.1 = .ret none ∧
        chats (written out.2) = chats (written log) ++ corpus.map (fun p => some (.str p.2)) ∧
        (submitted out.2).length = (submitted log).length + 20 ∧
        embedded out.2 = embedded log ++ corpus.map (fun p => p.2)) ∨
      (∃ k p logk errV, k < 20 ∧ corpus[k]? = some p ∧
        AddVector env p.2 logk = (.ret (some errV), out.2) ∧
        out.1 = .ret (some
          (Errorf_s_w "failed to add data to vector cache for category " p.1 errV)) ∧
        (Errorf_s_w "failed to add data to vector cache for category " p.1 errV).Unwrap =
          some errV ∧
        chats (written logk) =
          chats (written log) ++ (corpus.take k).map (fun p => some (.str p.2)) ∧
        written out.2 = written logk ∧
        (submitted logk).length = (submitted log).length + k ∧
        (submitted out.2).length ≤ (submitted log).length + k + 1 ∧
        embedded out.2 = embedded log ++ (corpus.take (k + 1)).map (fun p => p.2)) := by
  intro out
  have hlen : corpus.length = 20 := by decide
  have hL := addCategories_loaded env data log
  rcases hL with ⟨h1, h2, h3, h4⟩ | ⟨k, p, logk, errV, hk, hA, h1, h2, h3, h4⟩
  · left
    have hout : out = ((.ret none : Outcome (Option GoError)),
        (addCategories env data log).2 ++ [Event.print "All data loaded successfully!\n"]) := by
      rcases hres : addCategories env data log with ⟨o, l⟩
      rw [hres] at h1
      simp only at h1
      subst h1
      simp [out, AddData, hres]
    have hc : corpus.map (fun p => TrimSpace p.2) = corpus.map (fun p => p.2) :=
      List.map_congr_left (fun p hp => (corpus_trimmed p hp).1)
    refine ⟨by rw [hout], ?_, ?_, ?_⟩
    · rw [hout]
      simp only [written_append, chats_append]
      rw [h2]
      simp [written, Event.written, chats, corpus]
    · rw [hout]
      simp only [submitted_append, List.length_append]
      rw [h3]
      simp [submitted, Event.submitted]
      exact hlen
    · rw [hout]
      simp only [embedded_append]
      rw [h4]
      simp [embedded, Event.embedded]
      exact hc
  · right
    have hout : out = addCategories env data log := by
      rcases hres : addCategories env data log with ⟨o, l⟩
      rw [hres] at h1
      simp only at h1
      subst h1
      simp [out, AddData, hres]
    have hk' : corpus[k]? = some p := hk
    have hlt : k < 20 := hlen ▸ (List.getElem?_eq_some.mp hk').1
    have hmem : p ∈ corpus := by
      obtain ⟨hb, hp⟩ := List.getElem?_eq_some.mp hk'
      exact hp ▸ List.getElem_mem hb
    rw [← hout] at hA h1
    have htake : corpus.take (k + 1) = corpus.take k ++ [p] := by
      rw [List.take_succ, hk']; rfl
    rcases AddVector_cases env p.2 logk with ⟨l', hS, _⟩ | ⟨e, l', hF, hw, hs, he⟩
    · rw [hA] at hS
      simp at hS
    · rw [hA] at hF
      simp only [Prod.mk.injEq] at hF
      obtain ⟨_, hl⟩ := hF
      subst hl
      refine ⟨k, p, logk, errV, hlt, hk', hA, h1, rfl, h2, hw, h3, by omega, ?_⟩
      rw [he, h4, if_neg (corpus_trimmed p hmem).2, (corpus_trimmed p hmem).1, htake]
      have := corpus_map_trim k
      simp only [corpus] at this ⊢
      rw [this]
      simp

theorem slept_append (l₁ l₂ : Log) : slept (l₁ ++ l₂) = slept l₁ ++ slept l₂ := by
  simp [slept]

/-- An `AddVector` call never sleeps. -/
theorem AddVector_slept (env : Env) (chat : String) (log : Log) :
    slept (AddVector env chat log).2 = slept log := by
  obtain ⟨_, hok, hfail⟩ := AddVector_spec env chat log
  obtain ⟨vec, err, hret, hlog⟩ :=
    ApiEmbedding_log env chat (log ++ [Event.uuidNew (env.uuidNew log)])
  have hs : slept (ApiEmbedding env chat (log ++ [Event.uuidNew (env.uuidNew log)])).2 =
      slept log := by
    rcases hlog with ⟨_, _, h⟩ | ⟨resp, perr, _, h⟩ <;>
      simp [h, slept_append] <;> simp [slept, Event.slept]
  cases err with
  | some e =>
    obtain ⟨h2, _⟩ := hfail vec e hret
    rw [h2, hs]
  | none =>
    obtain ⟨h2, _⟩ := hok vec hret
    rw [h2, slept_append, hs]
    simp [slept, Event.slept]

theorem addTexts_slept (env : Env) (category : String) (texts : List String) :
    ∀ log : Log, ∃ n,
      slept (addTexts env category texts log).2 = slept log ++ List.replicate n sleepTime ∧
      (written (addTexts env category texts log).2).length = (written log).length + n := by
  induction texts with
  | nil =>
    intro log
    exact ⟨0, by simp [addTexts], by simp [addTexts]⟩
  | cons t rest ih =>
    intro log
    have hsl := AddVector_slept env t log
    rcases AddVector_cases env t log with ⟨log', hA, hw, _⟩ | ⟨e, log', hA, hw, _⟩
    · rw [hA] at hsl
      obtain ⟨n, h1, h2⟩ := ih (log' ++ [Event.sleep sleepTime])
      have hwl : (written log').length = (written log).length + 1 := by
        have := congrArg List.length hw
        simpa [chats_length] using this
      refine ⟨n + 1, ?_, ?_⟩
      · simp only [addTexts, hA]
        rw [h1, slept_append]
        simp only at hsl
        rw [hsl]
        simp [slept, Event.slept, List.replicate_succ]
      · simp only [addTexts, hA]
        rw [h2, written_append, List.length_append, hwl]
        simp [written, Event.written]
        omega
    · rw [hA] at hsl
      exact ⟨0, by simpa [addTexts, hA] using hsl, by simp [addTexts, hA, hw]⟩

theorem addCategories_slept (env : Env) (cats : List (String × List String)) :
    ∀ log : Log, ∃ n,
      slept (addCategories env cats log).2 = slept log ++ List.replicate n sleepTime ∧
      (written (addCategories env cats log).2).length = (written log).length + n := by
  induction cats with
  | nil =>
    intro log
    exact ⟨0, by simp [addCategories], by simp [addCategories]⟩
  | cons c cs ih =>
    intro log
    obtain ⟨n, h1, h2⟩ := addTexts_slept env c.1 c.2
      (log ++ [Event.print ("Adding data for category: " ++ c.1 ++ "\n")])
    have hs : slept (log ++ [Event.print ("Adding data for category: " ++ c.1 ++ "\n")]) =
        slept log := by
      rw [slept_append]; simp [slept, Event.slept]
    have hw : written (log ++ [Event.print ("Adding data for category: " ++ c.1 ++ "\n")]) =
        written log := by
      rw [written_append]; simp [written, Event.written]
    rw [hs] at h1
    rw [hw] at h2
    rcases hres : addTexts env c.1 c.2
      (log ++ [Event.print ("Adding data for category: " ++ c.1 ++ "\n")]) with ⟨o, l2⟩
    rw [hres] at h1 h2
    simp only at h1 h2
    by_cases ho : o = .ret none
    · subst ho
      have hstep : addCategories env (c :: cs) log = addCategories env cs l2 := by
        simp [addCategories, hres]
      obtain ⟨m, g1, g2⟩ := ih l2
      refine ⟨n + m, ?_, ?_⟩
      · rw [hstep, g1, h1, List.append_assoc, List.replicate_add]
      · rw [hstep, g2, h2]; omega
    · have hstep : addCategories env (c :: cs) log = (o, l2) := by
        simp only [addCategories, hres]
        split
        · rename_i heq
          simp only [Prod.mk.injEq] at heq
          exact absurd heq.1 ho
        · rfl
      exact ⟨n, by rw [hstep]; exact h1, by rw [hstep]; exact h2⟩

/-! ## Claims -/

/-- C1: for every input that is empty or consists only of white space,
`ApiEmbedding` returns a nil vector and the error "input is empty", and the log
at exit is the log at entry: no call to the embedding provider (nor any other
external call) has been made. -/
theorem ApiEmbedding_blank_input (env : Env) (input : String) (log : Log)
    (h : ∀ c ∈ input.data, IsSpace c = true) :
    ApiEmbedding env input log =
      (.ret (none, some (.errorString "input is empty")), log) := by
  simp [ApiEmbedding, TrimSpace_of_all_space input h]

/-- C4: `CreateSchema` always asks for the index to be dropped and then for it
to be created, in this order; whatever the drop answered, it returns an error
exactly when the creation failed, and that error wraps the creation failure. -/
theorem CreateSchema_ignores_drop (env : Env) (log : Log) :
    let d := env.Drop log
    let c := env.CreateIndex (log ++ [Event.drop d]) schema
    (CreateSchema env log).2 = log ++ [Event.drop d, Event.createIndex schema c] ∧
    ((CreateSchema env log).1 ≠ none ↔ c ≠ none) ∧
    (∀ e, c = some e →
      (CreateSchema env log).1 = some (Errorf_w "failed to create index: " e) ∧
      (Errorf_w "failed to create index: " e).Unwrap = some e) := by
  intro d c
  simp only [CreateSchema]
  cases hc : env.CreateIndex (log ++ [Event.drop (env.Drop log)]) schema <;>
    simp [c, d, hc, Errorf_w_Unwrap]

/-- C5: `ApiEmbedding` never panics (the access to element 0 of the response
data is in range); it returns a nil error exactly when the trimmed input is
non-empty, the provider call returns no error and the response holds at least
one embedding; then the vector is the first embedding of the response;
otherwise the vector is nil, and when the provider call was made and failed the
error wraps the provider error. -/
theorem ApiEmbedding_success_iff (env : Env) (input : String) (log : Log) :
    let t := TrimSpace input
    let r := env.CreateEmbeddings log API_KEY TIMEOUT { Input := [t], Model := .AdaEmbeddingV2 }
    ∃ vec err, (ApiEmbedding env input log).1 = .ret (vec, err) ∧
      (err = none ↔ (t ≠ "" ∧ r.2 = none ∧ 0 < r.1.Data.len)) ∧
      (err = none → ∃ d ds, r.1.Data = some (d :: ds) ∧ vec = d.Embedding) ∧
      (err ≠ none → vec = none) ∧
      (t ≠ "" → ∀ e, r.2 = some e →
        err = some (Errorf_w "error creating embeddings: " e) ∧
        (Errorf_w "error creating embeddings: " e).Unwrap = some e) :=
  ApiEmbedding_spec env input log

/-- C1 at the inputs "" and "   ": both consist of white space only and both
fail before any external call. -/
theorem ApiEmbedding_blank_input_witness :
    ((∀ c ∈ "".data, IsSpace c = true) ∧
      ApiEmbedding sampleEnv "" [] = (.ret (none, some (.errorString "input is empty")), [])) ∧
    ((∀ c ∈ "   ".data, IsSpace c = true) ∧
      ApiEmbedding sampleEnv "   " [] =
        (.ret (none, some (.errorString "input is empty")), [])) :=
  ⟨⟨by decide, ApiEmbedding_blank_input sampleEnv "" [] (by decide)⟩,
   ⟨by decide, ApiEmbedding_blank_input sampleEnv "   " [] (by decide)⟩⟩

/-- C2: the code at every query vector: the one request `SearchInVectorCache`
sends has a sort key on the field "vector_dist" whose ascending flag is not
set, so the request does not ask for ascending order. -/
theorem SearchInVectorCache_sort_flag (env : Env) (qv : Slice Float32) (log : Log) :
    let q := searchQuery qv
    let res := env.Search log q
    (SearchInVectorCache env qv log).2 = log ++ [Event.search q res.1 res.2.1 res.2.2] ∧
    q.SortBy = some { Field := "vector_dist", Ascending := false } ∧
    ¬ ∃ key, q.SortBy = some key ∧ key.Ascending = true := by
  intro q res
  refine ⟨?_, rfl, ?_⟩
  · simp only [SearchInVectorCache]
    cases h : (env.Search log (searchQuery qv)).2.2 <;> simp [q, res, h]
  · rintro ⟨key, hk, ha⟩
    simp [q, searchQuery, Query.Limit] at hk
    subst hk
    simp at ha

/-- C3: `SearchInVectorCache` makes exactly one search call; it returns an
error if and only if that call fails; then the documents are nil, the total is
-1 and the error wraps the cause; otherwise documents and total are those of
the index search and the error is nil. -/
theorem SearchInVectorCache_error_iff (env : Env) (qv : Slice Float32) (log : Log) :
    let res := env.Search log (searchQuery qv)
    let out := (SearchInVectorCache env qv log).1
    (SearchInVectorCache env qv log).2 =
      log ++ [Event.search (searchQuery qv) res.1 res.2.1 res.2.2] ∧
    (out.2.2 ≠ none ↔ res.2.2 ≠ none) ∧
    (∀ e, res.2.2 = some e →
      out = (none, -1, some (Errorf_w "failed to perform search: " e)) ∧
      (Errorf_w "failed to perform search: " e).Unwrap = some e) ∧
    (res.2.2 = none → out = (res.1, res.2.1, none)) := by
  intro res out
  simp only [out, res, SearchInVectorCache]
  cases h : (env.Search log (searchQuery qv)).2.2 <;> simp [h, Errorf_w_Unwrap]

/-- C8 as stated fails: with a provider that answers with an embedding of
three components, `ApiEmbedding` succeeds on "hello" and returns a vector of
three components, not `DIMS`. -/
theorem ApiEmbedding_dims_counterexample :
    (ApiEmbedding sampleEnv "hello" []).1 = .ret (some [0x3F800000, 0, 0x40000000], none) ∧
    Slice.len (some [0x3F800000, 0, 0x40000000] : Slice Float32) = 3 ∧
    Slice.len (some [0x3F800000, 0, 0x40000000] : Slice Float32) ≠ DIMS := by
  decide

/-- C8 amended: when `ApiEmbedding` succeeds, the returned vector is the first
embedding of the provider's response, unchanged; so it has exactly
`DIMS = 1536` components, the dimensionality the schema declares for the field
"chat_embeddings", whenever that first embedding has. -/
theorem ApiEmbedding_dims_of_provider (env : Env) (input : String) (log : Log)
    (vec : Slice Float32) (h : (ApiEmbedding env input log).1 = .ret (vec, none)) :
    let r := env.CreateEmbeddings log API_KEY TIMEOUT
      { Input := [TrimSpace input], Model := .AdaEmbeddingV2 }
    (∃ d ds, r.1.Data = some (d :: ds) ∧ vec = d.Embedding) ∧
    ((∀ d ds, r.1.Data = some (d :: ds) → d.Embedding.len = DIMS) → vec.len = DIMS) ∧
    DIMS = 1536 ∧
    ∃ o, Field.mk "chat_embeddings" (.vector o) ∈ schema.Fields ∧
      o.Attributes.get "DIM" = some (.int DIMS) := by
  intro r
  obtain ⟨vec', err, hret, _, hok, _, _⟩ := ApiEmbedding_spec env input log
  rw [hret] at h
  simp only [Outcome.ret.injEq, Prod.mk.injEq] at h
  obtain ⟨hv, he⟩ := h
  obtain ⟨d, ds, hd, hvec⟩ := hok he
  refine ⟨⟨d, ds, hd, by rw [← hv, hvec]⟩, fun hp => ?_, rfl,
    ⟨{ Algorithm := .Flat, Attributes := [("DIM", .int DIMS),
      ("DISTANCE_METRIC", .str "COSINE"), ("TYPE", .str "FLOAT32")] }, by decide, by decide⟩⟩
  rw [← hv, hvec]
  exact hp d ds hd

/-- C8 amended at a provider that answers "hello" with one embedding of `DIMS`
zeros: the returned vector has `DIMS` components. -/
theorem ApiEmbedding_dims_of_provider_witness :
    (ApiEmbedding fullEnv "hello" []).1 = .ret (some (List.replicate DIMS 0), none) ∧
    Slice.len (some (List.replicate DIMS 0) : Slice Float32) = DIMS :=
  ⟨rfl, (ApiEmbedding_dims_of_provider fullEnv "hello" [] (some (List.replicate DIMS 0)) rfl).2.1
    (fun d ds hd => by
      have hd' : some [({ Embedding := some (List.replicate DIMS 0), Index := 0 } : Embedding)] =
          some (d :: ds) := hd
      simp only [Option.some.injEq, List.cons.injEq] at hd'
      rw [← hd'.1]
      simp [Slice.len])⟩

/-- C9 as stated fails: when the index answers with six results in decreasing
order of distance, the successful `SearchInVectorCache` returns these six
results: more than 5, and not in non-decreasing order of distance. -/
theorem SearchInVectorCache_limit_counterexample :
    (SearchInVectorCache sampleEnv (some [0x3F800000, 0, 0x40000000]) []).1 =
      (some sixResults, 6, none) ∧
    ¬ Slice.len (some sixResults) ≤ 5 ∧
    ¬ sortedByDistance (Slice.toList (some sixResults)) := by
  decide

/-- C9 amended: a successful `SearchInVectorCache` returns exactly the
documents and total of the index response, in the response's order; so it
returns at most 5 documents whenever the response holds at most 5, and
documents in non-decreasing order of distance whenever the response is in that
order. -/
theorem SearchInVectorCache_returns_response (env : Env) (qv : Slice Float32) (log : Log)
    (docs : Slice Document) (total : Int)
    (h : (SearchInVectorCache env qv log).1 = (docs, total, none)) :
    let res := env.Search log (searchQuery qv)
    docs = res.1 ∧ total = res.2.1 ∧
    (res.1.len ≤ 5 → docs.len ≤ 5) ∧
    (sortedByDistance res.1.toList → sortedByDistance docs.toList) := by
  intro res
  have hd : docs = res.1 ∧ total = res.2.1 := by
    simp only [SearchInVectorCache] at h
    cases hs : (env.Search log (searchQuery qv)).2.2 with
    | some e => simp [hs] at h
    | none =>
      simp only [hs, Prod.mk.injEq] at h
      exact ⟨h.1.symm, h.2.1.symm⟩
  obtain ⟨h1, h2⟩ := hd
  subst h1
  exact ⟨rfl, h2, id, id⟩

/-- C9 amended at an index that answers with two results in increasing order. -/
theorem SearchInVectorCache_returns_response_witness :
    (SearchInVectorCache fullEnv none []).1 =
      (some [resultDoc "d1" "a" "0.1", resultDoc "d2" "b" "0.25"], 2, none) ∧
    Slice.len (some [resultDoc "d1" "a" "0.1", resultDoc "d2" "b" "0.25"]) ≤ 5 ∧
    sortedByDistance (Slice.toList (some [resultDoc "d1" "a" "0.1", resultDoc "d2" "b" "0.25"])) :=
  have w := SearchInVectorCache_returns_response fullEnv none []
    (some [resultDoc "d1" "a" "0.1", resultDoc "d2" "b" "0.25"]) 2 rfl
  ⟨rfl, w.2.2.1 (by decide), w.2.2.2 (by decide)⟩

/-- C10: the one request `SearchInVectorCache` sends is the KNN request with
K = 10 against the field chat_embeddings, with the encoded query vector as the
parameter query_vector, the return fields "chat" and "vector_dist", and the
page of 5 results from offset 0. -/
theorem SearchInVectorCache_request (env : Env) (qv : Slice Float32) (log : Log) :
    let q := searchQuery qv
    let res := env.Search log q
    (SearchInVectorCache env qv log).2 = log ++ [Event.search q res.1 res.2.1 res.2.2] ∧
    q.Raw = "(*)=>[KNN 10 @chat_embeddings $query_vector AS vector_dist]" ∧
    q.Params = [("query_vector", .bin (VectorString32 qv))] ∧
    q.Params.get "query_vector" = some (.bin (VectorString32 qv)) ∧
    q.ReturnFields = ["chat", "vector_dist"] ∧
    q.Paging = { Offset := 0, Num := 5 } ∧
    q.Dialect = 2 := by
  intro q res
  refine ⟨?_, rfl, rfl, ?_, rfl, rfl, rfl⟩
  · simp only [SearchInVectorCache]
    cases h : (env.Search log (searchQuery qv)).2.2 <;> simp [q, res, h]
  · simp [q, searchQuery, Query.Limit, Props.get]

/-- C6: `AddVector` never panics and submits at most one document, one exactly
when embedding the text succeeds; that document has score 1.0, its field
"chat" is the raw input text and its field "chat_embeddings" is
`VectorString32` of the embedded vector; the result is an error wrapping the
write failure exactly when the write fails; if embedding fails nothing is
submitted and the result is an error wrapping the embedding failure. -/
theorem AddVector_submits_one (env : Env) (chat : String) (log : Log) :
    let key := env.uuidNew log
    let emb := ApiEmbedding env chat (log ++ [Event.uuidNew key])
    let out := AddVector env chat log
    (∃ vec err, emb.1 = .ret (vec, err)) ∧
    (∀ vec, emb.1 = .ret (vec, none) →
      let doc : Document :=
        { Id := key, Score := f32_one, Payload := none,
          Properties := [("chat", .str chat), ("chat_embeddings", .bin (VectorString32 vec))] }
      let w := env.Index emb.2 [doc]
      out.2 = emb.2 ++ [Event.index [doc] w] ∧
      submitted out.2 = submitted log ++ [doc] ∧
      doc.Score = 0x3F800000 ∧
      doc.Properties.get "chat" = some (.str chat) ∧
      doc.Properties.get "chat_embeddings" = some (.bin (VectorString32 vec)) ∧
      out.1 = .ret (w.map (Errorf_w "failed to index document: ")) ∧
      (∀ e, w = some e → (Errorf_w "failed to index document: " e).Unwrap = some e)) ∧
    (∀ vec e, emb.1 = .ret (vec, some e) →
      out.2 = emb.2 ∧
      submitted out.2 = submitted log ∧
      out.1 = .ret (some (Errorf_w "failed to generate embedding: " e)) ∧
      (Errorf_w "failed to generate embedding: " e).Unwrap = some e) := by
  intro key emb out
  obtain ⟨h0, hok, hfail⟩ := AddVector_spec env chat log
  refine ⟨h0, ?_, hfail⟩
  intro vec hv doc w
  obtain ⟨h1, h2, h3, h4⟩ := hok vec hv
  exact ⟨h1, h2, rfl, by simp [doc, Props.get], by simp [doc, Props.get], h3, h4⟩

/-- C7: `AddData` goes through the 20 sample texts (4 categories of 5) in order
and stops at the first failure.  Either it returns nil, and then the 20 texts
have been embedded and written in order (20 documents submitted); or
`AddVector` failed on the text at position `k` (counting from 0): the result
wraps that failure, the `k` earlier texts are exactly what has been written,
and no text after that one has been embedded.  It returns nil if and only if
20 documents have been written. -/
theorem AddData_stops_at_first_failure (env : Env) (log : Log) :
    let out := AddData env log
    corpus.length = 20 ∧ data.length = 4 ∧ (∀ c ∈ data, c.2.length = 5) ∧
    (out.1 = .ret none ↔ (written out.2).length = (written log).length + 20) ∧
    ((out.1 = .ret none ∧
        chats (written out.2) = chats (written log) ++ corpus.map (fun p => some (.str p.2)) ∧
        (submitted out.2).length = (submitted log).length + 20 ∧
        embedded out.2 = embedded log ++ corpus.map (fun p => p.2)) ∨
      (∃ k p logk errV, k < 20 ∧ corpus[k]? = some p ∧
        AddVector env p.2 logk = (.ret (some errV), out.2) ∧
        out.1 = .ret (some
          (Errorf_s_w "failed to add data to vector cache for category " p.1 errV)) ∧
        (Errorf_s_w "failed to add data to vector cache for category " p.1 errV).Unwrap =
          some errV ∧
        chats (written logk) =
          chats (written log) ++ (corpus.take k).map (fun p => some (.str p.2)) ∧
        written out.2 = written logk ∧
        (submitted logk).length = (submitted log).length + k ∧
        (submitted out.2).length ≤ (submitted log).length + k + 1 ∧
        embedded out.2 = embedded log ++ (corpus.take (k + 1)).map (fun p => p.2))) := by
  intro out
  have hlen : corpus.length = 20 := by decide
  have hmain := AddData_cases env log
  simp only at hmain
  refine ⟨hlen, by decide, by decide, ?_, hmain⟩
  rcases hmain with ⟨h1, h2, _, _⟩ | ⟨k, p, logk, errV, hlt, _, _, h1, _, h2, hw, _⟩
  · have := congrArg List.length h2
    simp only [chats_length, List.length_append, List.length_map, hlen] at this
    exact ⟨fun _ => this, fun _ => h1⟩
  · have := congrArg List.length h2
    simp only [chats_length, List.length_append, List.length_map, List.length_take, hlen] at this
    rw [h1, hw]
    constructor
    · intro h; simp at h
    · intro h; omega

/-! ## Further properties -/

/-- X1: the schema `CreateSchema` asks the index to create has exactly two
fields: the text field "chat", neither stemmed nor indexed, and the vector field
"chat_embeddings" with algorithm FLAT, 1536 dimensions, the COSINE metric and
FLOAT32 elements. -/
theorem CreateSchema_schema (env : Env) (log : Log) :
    (∃ d c, (CreateSchema env log).2 = log ++ [Event.drop d, Event.createIndex schema c]) ∧
    schema.Fields =
      [ { Name := "chat", Options := .text { NoStem := true, NoIndex := true } },
        { Name := "chat_embeddings",
          Options := .vector
            { Algorithm := .Flat
              Attributes := [("DIM", .int 1536), ("DISTANCE_METRIC", .str "COSINE"),
                ("TYPE", .str "FLOAT32")] } } ] := by
  refine ⟨⟨env.Drop log, env.CreateIndex (log ++ [Event.drop (env.Drop log)]) schema, ?_⟩,
    by decide⟩
  simp only [CreateSchema]
  cases hc : env.CreateIndex (log ++ [Event.drop (env.Drop log)]) schema <;> simp

/-- X2: `ApiEmbedding` makes no external call when the trimmed input is empty
and otherwise exactly one: a provider call with the configured key, the
timeout of 30 seconds, the trimmed text as the only input and the model
`AdaEmbeddingV2`. -/
theorem ApiEmbedding_one_provider_call (env : Env) (input : String) (log : Log) :
    (TrimSpace input = "" ∧ (ApiEmbedding env input log).2 = log) ∨
    (TrimSpace input ≠ "" ∧ ∃ resp perr, (ApiEmbedding env input log).2 =
      log ++ [Event.createEmbeddings "SOME_OPENAI_API_KEY" 30000000000
        { Input := [TrimSpace input], Model := .AdaEmbeddingV2 } resp perr]) := by
  obtain ⟨_, _, _, h⟩ := ApiEmbedding_log env input log
  rcases h with ⟨_, ht, hl⟩ | ⟨resp, perr, ht, hl⟩
  · exact Or.inl ⟨ht, hl⟩
  · exact Or.inr ⟨ht, resp, perr, hl⟩

/-- X3: `AddData` sleeps only for 2 seconds at a time, once after each text it
has written: as many times as documents were written, 20 times when it returns
nil. -/
theorem AddData_sleeps (env : Env) (log : Log) :
    ∃ n, slept (AddData env log).2 = slept log ++ List.replicate n 2000000000 ∧
      (written (AddData env log).2).length = (written log).length + n ∧
      ((AddData env log).1 = .ret none → n = 20) := by
  obtain ⟨n, h1, h2⟩ := addCategories_slept env data log
  have hcases := AddData_cases env log
  simp only at hcases
  have hlen : corpus.length = 20 := by decide
  have hfin : slept (AddData env log).2 = slept log ++ List.replicate n sleepTime ∧
      (written (AddData env log).2).length = (written log).length + n := by
    rcases hres : addCategories env data log with ⟨o, l⟩
    rw [hres] at h1 h2
    simp only at h1 h2
    by_cases ho : o = .ret none
    · subst ho
      have : AddData env log = (.ret none, l ++ [Event.print "All data loaded successfully!\n"]) := by
        simp [AddData, hres]
      rw [this]
      simp only [slept_append, written_append, List.length_append]
      rw [h1, h2]
      simp [slept, Event.slept, written, Event.written]
    · have : AddData env log = (o, l) := by
        simp only [AddData, hres]
        split
        · rename_i heq
          simp only [Prod.mk.injEq] at heq
          exact absurd heq.1 ho
        · rfl
      rw [this]
      exact ⟨h1, h2⟩
  refine ⟨n, hfin.1, hfin.2, ?_⟩
  intro hnil
  rcases hcases with ⟨_, hw, _⟩ | ⟨k, p, logk, errV, _, _, _, hne, _⟩
  · have := congrArg List.length hw
    simp only [chats_length, List.length_append, List.length_map, hlen] at this
    omega
  · rw [hnil] at hne
    simp at hne

end RedisearchVector
